import Mathlib

/-!
Shallow embedding of the Rock–Paper–Scissors game engine from `src/main.py`
(class `RPSApp`). Only the engine parts are modelled: the move/outcome model,
the adaptive opponent strategy (`_cpu_pick`, `_counter_to`), the round
resolution (`_decide`), the match bookkeeping inside `play`, `reset_match`,
and the best-of configuration callback `_on_bestof_change`.

Modelling conventions:
- Python strings "Rock"/"Paper"/"Scissors" become the inductive `Move`;
  the `if user_choice not in CHOICES: return` guard of `play` is
  unrepresentable (every `Move` is a valid choice).
- The Tk `IntVar` counters become `Int` fields of the structure `RPSState`.
- The random draws of one `play` call (`random.random() < 0.7`, and the
  `random.choice(CHOICES)` calls) are passed in explicitly as a `PlayRand` value:
  `coin` is the Boolean result of the comparison `random.random() < 0.7`,
  `pick` is the index drawn by `random.choice(CHOICES)`, and `fallbackPick`
  the index that the dead fallback line of `_counter_to` would draw.
- Timestamps (`datetime.now()`) are wall-clock I/O and are omitted from the
  history records; all other record fields are kept.
- Python `//` on possibly-negative ints is `Int.fdiv` (floor division) and
  Python `%` is `Int.emod`, matching Python semantics on negatives.
-/

inductive Move where
  | Rock
  | Paper
  | Scissors
deriving DecidableEq, Repr, Fintype

inductive Outcome where
  | Win
  | Lose
  | Tie
deriving DecidableEq, Repr, Fintype

inductive Difficulty where
  | Adaptive
  | Random
deriving DecidableEq, Repr, Fintype

inductive Achievement where
  | FirstWin
  | HotStreak3
deriving DecidableEq, Repr, Fintype

/-- `CHOICES = ["Rock", "Paper", "Scissors"]` (line 20). -/
def CHOICES : List Move := [Move.Rock, Move.Paper, Move.Scissors]

/-- `BEATS = {"Rock": "Scissors", "Paper": "Rock", "Scissors": "Paper"}`
(line 22), kept as the insertion-ordered item list so that `_counter_to`'s
`for k, v in BEATS.items()` loop is modelled faithfully. -/
def BEATS : List (Move × Move) :=
  [(Move.Rock, Move.Scissors), (Move.Paper, Move.Rock), (Move.Scissors, Move.Paper)]

/-- The dict lookup `BEATS[m]` as a total function (every move is a key). -/
def BEATS_fn : Move → Move
  | Move.Rock => Move.Scissors
  | Move.Paper => Move.Rock
  | Move.Scissors => Move.Paper

/-- `random.choice(CHOICES)`: the element of `CHOICES` at the drawn index. -/
def choiceAt (i : Fin 3) : Move := CHOICES.get ⟨i.val, i.isLt⟩

/-- Position of a move in the fixed iteration order `Rock, Paper, Scissors`
(the insertion order of the `counts` dict in `_cpu_pick`). -/
def scanIdx : Move → Nat
  | Move.Rock => 0
  | Move.Paper => 1
  | Move.Scissors => 2

/-- The random draws one `play` call may consume. -/
structure PlayRand where
  coin : Bool
  pick : Fin 3
  fallbackPick : Fin 3
deriving DecidableEq, Repr

/-- One entry of `self.history` (line 236), minus the wall-clock timestamp. -/
structure RoundRec where
  user : Move
  cpu : Move
  result : Outcome
deriving DecidableEq, Repr

/-- The engine-relevant mutable state of `RPSApp` (lines 31-48). -/
structure RPSState where
  difficulty : Difficulty
  best_of : Int
  target_wins : Int
  user_score : Int
  cpu_score : Int
  tie_count : Int
  rounds : Int
  curr_streak : Int
  best_user_streak : Int
  best_cpu_streak : Int
  history : List RoundRec
  user_recent : List Move
  achievements : List Achievement
deriving DecidableEq, Repr

/-- The state built by `RPSApp.__init__`: difficulty "Adaptive", best-of 5,
`target_wins = 5 // 2 + 1 = 3`, every counter zero, empty history, empty
recent window, no achievements. -/
def init_state : RPSState :=
  { difficulty := Difficulty.Adaptive
    best_of := 5
    target_wins := 5 / 2 + 1
    user_score := 0
    cpu_score := 0
    tie_count := 0
    rounds := 0
    curr_streak := 0
    best_user_streak := 0
    best_cpu_streak := 0
    history := []
    user_recent := []
    achievements := [] }

/-- `_counter_to` (lines 278-283): scan `BEATS.items()` in insertion order and
return the first key whose value equals `choice`; the trailing
`return random.choice(CHOICES)` fallback is modelled by `choiceAt fb`. -/
def counter_to (choice : Move) (fb : Fin 3) : Move :=
  match BEATS.find? (fun p => p.2 == choice) with
  | some p => p.1
  | none => choiceAt fb

/-- Python `max(iterable, key=f)` over a nonempty iteration `first :: rest`:
keeps the current best and replaces it only on a strictly larger key, so ties
go to the earliest element. -/
def pymax_by (f : Move → Nat) : Move → List Move → Move
  | best, [] => best
  | best, c :: cs => pymax_by f (if f c > f best then c else best) cs

/-- `max(counts, key=counts.get)` in `_cpu_pick` (line 274): the `counts` dict
iterates in insertion order `Rock, Paper, Scissors`, and each value is the
occurrence count in `user_recent`. -/
def dict_max (recent : List Move) : Move :=
  pymax_by (fun c => recent.count c) Move.Rock [Move.Paper, Move.Scissors]

/-- `_cpu_pick` (lines 267-276). -/
def cpu_pick (s : RPSState) (r : PlayRand) : Move :=
  if s.difficulty = Difficulty.Random ∨ s.user_recent = [] then choiceAt r.pick
  else
    let predicted := dict_max s.user_recent
    let counter := counter_to predicted r.fallbackPick
    if r.coin then counter else choiceAt r.pick

/-- `_decide` (lines 285-289). -/
def decide_round (user : Move) (cpu : Move) : Outcome :=
  if user = cpu then Outcome.Tie
  else if BEATS_fn user = cpu then Outcome.Win
  else Outcome.Lose

/-- The score/streak update block of `play` (lines 217-227): increment
`rounds`, then per outcome bump exactly one of the three counters and apply
the streak rule, folding the best-streak maxima in as the code does. -/
def apply_outcome (s : RPSState) (result : Outcome) : RPSState :=
  let s1 := { s with rounds := s.rounds + 1 }
  match result with
  | Outcome.Win =>
      let ns : Int := if s1.curr_streak ≥ (0 : Int) then s1.curr_streak + 1 else 1
      { s1 with user_score := s1.user_score + 1
                curr_streak := ns
                best_user_streak := max s1.best_user_streak ns }
  | Outcome.Lose =>
      let ns : Int := if s1.curr_streak ≤ (0 : Int) then s1.curr_streak - 1 else -1
      { s1 with cpu_score := s1.cpu_score + 1
                curr_streak := ns
                best_cpu_streak := max s1.best_cpu_streak |ns| }
  | Outcome.Tie => { s1 with tie_count := s1.tie_count + 1 }

/-- Lines 230-232: append the human choice to `user_recent` and pop the front
when the window exceeds 7. -/
def push_recent (l : List Move) (c : Move) : List Move :=
  let l1 := l ++ [c]
  if l1.length > 7 then l1.drop 1 else l1

/-- `_unlock` (lines 351-357): add to the achievement set, a no-op when
already present (`List.insert` is exactly that on the model's list). -/
def unlock (s : RPSState) (a : Achievement) : RPSState :=
  { s with achievements := s.achievements.insert a }

/-- `reset_match` (lines 201-208): zero the five per-match counters. The
listbox clearing is UI; `self.history`, the best streaks and the achievement
set are untouched. -/
def reset_match (s : RPSState) : RPSState :=
  { s with user_score := 0
           cpu_score := 0
           tie_count := 0
           rounds := 0
           curr_streak := 0 }

/-- `play` before the match-winner check (lines 210-255): pick the CPU move,
classify the outcome, run the score/streak update block, push the recent-move
window, append the history record, and unlock achievements on a win. -/
def play_pre (s : RPSState) (user_choice : Move) (r : PlayRand) : RPSState :=
  let cpu_choice := cpu_pick s r
  let result := decide_round user_choice cpu_choice
  let s1 := apply_outcome s result
  let s2 := { s1 with user_recent := push_recent s1.user_recent user_choice }
  let s3 := { s2 with history := s2.history ++ [⟨user_choice, cpu_choice, result⟩] }
  if result = Outcome.Win then
    let sa := unlock s3 Achievement.FirstWin
    if sa.curr_streak ≥ (3 : Int) then unlock sa Achievement.HotStreak3 else sa
  else s3

/-- `play` (lines 210-265): the round application above followed by the
match-winner check (lines 257-265) - if either score has reached
`target_wins`, the match is reset inside the same call (line 265). -/
def play (s : RPSState) (user_choice : Move) (r : PlayRand) : RPSState :=
  let s4 := play_pre s user_choice r
  if s4.user_score ≥ s4.target_wins ∨ s4.cpu_score ≥ s4.target_wins then
    reset_match s4
  else s4

/-- `_on_bestof_change` (lines 182-193) for an integer spinbox value `v`:
force odd by adding one to an even value, store it back into `best_of`, and
recompute `target_wins = v // 2 + 1` with Python floor division. -/
def on_bestof_change (s : RPSState) (v : Int) : RPSState :=
  let v1 := if v % 2 = 0 then v + 1 else v
  { s with best_of := v1, target_wins := v1.fdiv 2 + 1 }

/-- The most recent non-tie outcome of a round sequence, if any. -/
def mostRecentNonTie (rs : List Outcome) : Option Outcome :=
  rs.foldl (fun acc r => if r = Outcome.Tie then acc else some r) none

/-! ### Helper lemmas -/

/-- Python floor division by the positive constant 2 agrees with Lean's
Euclidean division. -/
lemma fdiv_two_eq (a : Int) : a.fdiv 2 = a / 2 :=
  Int.fdiv_eq_ediv a (by omega)

/-- Projection facts for the score/streak update block, read off the
structure literal it produces. -/
lemma apply_outcome_rounds (s : RPSState) (o : Outcome) :
    (apply_outcome s o).rounds = s.rounds + 1 := by
  cases o <;> rfl

lemma apply_outcome_win_streak (s : RPSState) :
    (apply_outcome s Outcome.Win).curr_streak =
      (if s.curr_streak ≥ (0 : Int) then s.curr_streak + 1 else 1) := rfl

lemma apply_outcome_lose_streak (s : RPSState) :
    (apply_outcome s Outcome.Lose).curr_streak =
      (if s.curr_streak ≤ (0 : Int) then s.curr_streak - 1 else -1) := rfl

lemma apply_outcome_tie_streak (s : RPSState) :
    (apply_outcome s Outcome.Tie).curr_streak = s.curr_streak := rfl

/-! ### C3 -/

/-- C3: the outcome classification is total on the 9 move pairs and returns
Tie exactly on equal moves, Win exactly when the human move beats the CPU
move under the cyclic dominance relation, and Lose otherwise. -/
theorem claim_C3 : ∀ user cpu : Move,
    (decide_round user cpu = Outcome.Tie ↔ user = cpu) ∧
    (decide_round user cpu = Outcome.Win ↔ user ≠ cpu ∧ BEATS_fn user = cpu) ∧
    (decide_round user cpu = Outcome.Lose ↔ user ≠ cpu ∧ BEATS_fn user ≠ cpu) := by
  decide

/-- Closed instance of C3 at a concrete pair. -/
theorem claim_C3_witness : decide_round Move.Rock Move.Scissors = Outcome.Win :=
  (claim_C3 Move.Rock Move.Scissors).2.1.mpr (by decide)

/-! ### C10 -/

/-- C10: for every move the scan of `BEATS.items()` finds a key (so the
random fallback line of `_counter_to` is dead code for valid inputs), the
result does not depend on the fallback draw, it beats the input move, and it
is the only move that does. -/
theorem claim_C10 : ∀ m : Move,
    ((BEATS.find? (fun p => p.2 == m)).isSome = true) ∧
    (∀ i j : Fin 3, counter_to m i = counter_to m j) ∧
    BEATS_fn (counter_to m 0) = m ∧
    (∀ k : Move, BEATS_fn k = m → k = counter_to m 0) := by
  decide

/-- Closed instance of C10: Paper is the unique counter of Rock. -/
theorem claim_C10_witness : Move.Paper = counter_to Move.Rock 0 :=
  (claim_C10 Move.Rock).2.2.2 Move.Paper (by decide)

/-! ### C8 -/

/-- C8: `reset_match` is total (legal in every state), zeroes the five
per-match counters, and leaves the session-scoped best streaks, achievement
set and full round history untouched. -/
theorem claim_C8 (s : RPSState) :
    (reset_match s).user_score = 0 ∧
    (reset_match s).cpu_score = 0 ∧
    (reset_match s).tie_count = 0 ∧
    (reset_match s).rounds = 0 ∧
    (reset_match s).curr_streak = 0 ∧
    (reset_match s).best_user_streak = s.best_user_streak ∧
    (reset_match s).best_cpu_streak = s.best_cpu_streak ∧
    (reset_match s).achievements = s.achievements ∧
    (reset_match s).history = s.history :=
  ⟨rfl, rfl, rfl, rfl, rfl, rfl, rfl, rfl, rfl⟩

/-! ### C6 -/

/-- C6: for every positive `n`, `_on_bestof_change` coerces an even value to
`n + 1`, always yields `target_wins = n // 2 + 1` (floor division of the
original argument), and does not touch any per-match state. -/
theorem claim_C6 (s : RPSState) (n : Int) (h : 0 < n) :
    (on_bestof_change s n).target_wins = n.fdiv 2 + 1 ∧
    (n % 2 = 0 → (on_bestof_change s n).best_of = n + 1) ∧
    (n % 2 ≠ 0 → (on_bestof_change s n).best_of = n) ∧
    (on_bestof_change s n).user_score = s.user_score ∧
    (on_bestof_change s n).cpu_score = s.cpu_score ∧
    (on_bestof_change s n).tie_count = s.tie_count ∧
    (on_bestof_change s n).rounds = s.rounds ∧
    (on_bestof_change s n).curr_streak = s.curr_streak ∧
    (on_bestof_change s n).history = s.history ∧
    (on_bestof_change s n).user_recent = s.user_recent := by
  unfold on_bestof_change
  dsimp only
  split_ifs with he
  · refine ⟨?_, fun _ => rfl, fun ho => absurd he ho, rfl, rfl, rfl, rfl, rfl, rfl, rfl⟩
    rw [fdiv_two_eq, fdiv_two_eq]
    omega
  · exact ⟨rfl, fun hc => absurd hc he, fun _ => rfl, rfl, rfl, rfl, rfl, rfl, rfl, rfl⟩

/-- Closed instances of C6: best-of 4 is coerced (target 3), best-of 7 gives
target 4. -/
theorem claim_C6_witness :
    (on_bestof_change init_state 4).target_wins = 3 ∧
    (on_bestof_change init_state 4).best_of = 5 ∧
    (on_bestof_change init_state 7).target_wins = 4 :=
  ⟨((claim_C6 init_state 4 (by decide)).1).trans (by decide),
   (claim_C6 init_state 4 (by decide)).2.1 (by decide),
   ((claim_C6 init_state 7 (by decide)).1).trans (by decide)⟩

/-! ### C7 -/

/-- C7 counterexample: `_on_bestof_change` with the non-positive value 0 does
not reject the call - it coerces 0 to 1 and overwrites both `best_of` (5
before) and `target_wins` (3 before), so the prior configuration is not left
intact. -/
theorem claim_C7_counterexample :
    init_state.best_of = 5 ∧ init_state.target_wins = 3 ∧
    (on_bestof_change init_state 0).best_of = 1 ∧
    (on_bestof_change init_state 0).target_wins = 1 := by
  decide

/-- C7 as amended: a non-positive `n` is not rejected and raises no error;
the same rule runs - even values are coerced to `n + 1`, `best_of` is
overwritten, and `target_wins` is recomputed as floor division `v // 2 + 1`
of the stored value - while the per-match fields stay untouched. -/
theorem claim_C7 (s : RPSState) (n : Int) (h : n ≤ 0) :
    (n % 2 = 0 →
      (on_bestof_change s n).best_of = n + 1 ∧
      (on_bestof_change s n).target_wins = (n + 1).fdiv 2 + 1) ∧
    (n % 2 ≠ 0 →
      (on_bestof_change s n).best_of = n ∧
      (on_bestof_change s n).target_wins = n.fdiv 2 + 1) ∧
    (on_bestof_change s n).user_score = s.user_score ∧
    (on_bestof_change s n).cpu_score = s.cpu_score ∧
    (on_bestof_change s n).rounds = s.rounds ∧
    (on_bestof_change s n).history = s.history := by
  unfold on_bestof_change
  split_ifs with he
  · exact ⟨fun _ => ⟨rfl, rfl⟩, fun ho => absurd he ho, rfl, rfl, rfl, rfl⟩
  · exact ⟨fun hc => absurd hc he, fun _ => ⟨rfl, rfl⟩, rfl, rfl, rfl, rfl⟩

/-- Closed instance of C7 as amended, at `n = 0`. -/
theorem claim_C7_witness :
    (on_bestof_change init_state 0).best_of = 1 ∧
    (on_bestof_change init_state 0).target_wins = 1 := by
  have h := (claim_C7 init_state 0 (by decide)).1 (by decide)
  exact ⟨h.1.trans (by decide), h.2.trans (by decide)⟩

/-! ### C2 -/

/-- The Python `max(counts, key=counts.get)` tie-break: `dict_max` returns a
move of maximal count, and any move strictly earlier in the fixed scan order
`Rock, Paper, Scissors` has a strictly smaller count. -/
lemma dict_max_spec (recent : List Move) :
    (∀ c : Move, recent.count c ≤ recent.count (dict_max recent)) ∧
    (∀ c : Move, scanIdx c < scanIdx (dict_max recent) →
        recent.count c < recent.count (dict_max recent)) := by
  have key : ∀ c : Move,
      recent.count c ≤ recent.count (dict_max recent) ∧
      (scanIdx c < scanIdx (dict_max recent) →
        recent.count c < recent.count (dict_max recent)) := by
    intro c
    simp only [dict_max, pymax_by]
    split_ifs <;> cases c <;> simp only [scanIdx] <;> omega
  exact ⟨fun c => (key c).1, fun c => (key c).2⟩

/-- `_counter_to` returns the unique move beating its argument (checked over
all nine combinations). -/
lemma counter_to_spec : ∀ (p : Move) (fb : Fin 3),
    BEATS_fn (counter_to p fb) = p ∧
    ∀ k : Move, BEATS_fn k = p → k = counter_to p fb := by
  decide

/-- C2: in Random mode or with an empty window `_cpu_pick` returns the move
at the uniform draw's index (and every move is reachable by some index); in
Adaptive mode with a non-empty window, when the 70% coin comes up, it
returns the unique move beating the predicted move, where the prediction is
a maximal-count move of the window and ties go to the earliest move in the
scan order `Rock, Paper, Scissors`. -/
theorem claim_C2 (s : RPSState) (r : PlayRand) :
    ((s.difficulty = Difficulty.Random ∨ s.user_recent = []) →
        cpu_pick s r = choiceAt r.pick) ∧
    (∀ m : Move, ∃ i : Fin 3, choiceAt i = m) ∧
    (s.difficulty = Difficulty.Adaptive → s.user_recent ≠ [] → r.coin = true →
        (∀ c : Move,
          s.user_recent.count c ≤ s.user_recent.count (dict_max s.user_recent)) ∧
        (∀ c : Move, scanIdx c < scanIdx (dict_max s.user_recent) →
          s.user_recent.count c < s.user_recent.count (dict_max s.user_recent)) ∧
        BEATS_fn (cpu_pick s r) = dict_max s.user_recent ∧
        (∀ k : Move, BEATS_fn k = dict_max s.user_recent → k = cpu_pick s r)) := by
  refine ⟨?_, by decide, ?_⟩
  · intro h
    unfold cpu_pick
    rw [if_pos h]
  · intro hd hr hc
    have hcond : ¬(s.difficulty = Difficulty.Random ∨ s.user_recent = []) := by
      rintro (h1 | h2)
      · rw [hd] at h1
        exact Difficulty.noConfusion h1
      · exact hr h2
    have hcp : cpu_pick s r = counter_to (dict_max s.user_recent) r.fallbackPick := by
      unfold cpu_pick
      rw [if_neg hcond]
      simp only [hc, if_true]
    refine ⟨(dict_max_spec s.user_recent).1, (dict_max_spec s.user_recent).2, ?_, ?_⟩
    · rw [hcp]
      exact (counter_to_spec (dict_max s.user_recent) r.fallbackPick).1
    · intro k hk
      rw [hcp]
      exact (counter_to_spec (dict_max s.user_recent) r.fallbackPick).2 k hk

/-- Concrete states and draws used by the closed witness instances. -/
def s_random : RPSState := { init_state with difficulty := Difficulty.Random }

def s_adaptive : RPSState :=
  { init_state with user_recent := [Move.Rock, Move.Rock, Move.Paper] }

def r_coin_hit : PlayRand := ⟨true, 0, 0⟩

/-- Closed instance of C2: the Random branch at pick index 0, and the
Adaptive 70%-branch countering the most frequent recent move. -/
theorem claim_C2_witness :
    cpu_pick s_random r_coin_hit = choiceAt r_coin_hit.pick ∧
    BEATS_fn (cpu_pick s_adaptive r_coin_hit) = dict_max s_adaptive.user_recent :=
  ⟨(claim_C2 s_random r_coin_hit).1 (Or.inl rfl),
   ((claim_C2 s_adaptive r_coin_hit).2.2 rfl (by decide) rfl).2.2.1⟩

/-! ### Facts about the round application `play_pre` -/

/-- Score bounds for one outcome application: each score grows by at most one
and never decreases, and the configuration fields are untouched. -/
lemma apply_outcome_scores (s : RPSState) (o : Outcome) :
    s.user_score ≤ (apply_outcome s o).user_score ∧
    (apply_outcome s o).user_score ≤ s.user_score + 1 ∧
    s.cpu_score ≤ (apply_outcome s o).cpu_score ∧
    (apply_outcome s o).cpu_score ≤ s.cpu_score + 1 ∧
    (apply_outcome s o).target_wins = s.target_wins := by
  cases o <;> simp [apply_outcome]

/-- The fields of the pre-conclusion state in terms of the input state: the
configuration is untouched, the history gets exactly the new record, and the
numeric updates are those of `apply_outcome` on the round's outcome. -/
lemma play_pre_proj (s : RPSState) (m : Move) (r : PlayRand) :
    (play_pre s m r).target_wins = s.target_wins ∧
    (play_pre s m r).history =
      s.history ++ [⟨m, cpu_pick s r, decide_round m (cpu_pick s r)⟩] ∧
    (play_pre s m r).curr_streak =
      (apply_outcome s (decide_round m (cpu_pick s r))).curr_streak ∧
    (play_pre s m r).user_score =
      (apply_outcome s (decide_round m (cpu_pick s r))).user_score ∧
    (play_pre s m r).cpu_score =
      (apply_outcome s (decide_round m (cpu_pick s r))).cpu_score := by
  cases h : decide_round m (cpu_pick s r) <;>
    simp only [play_pre, h] <;>
    split_ifs <;>
    simp_all [unlock, apply_outcome]

/-! ### C1 -/

/-- A state whose human score has already reached the target (not reachable
through `play`, which resets eagerly, but the claim quantifies over it). -/
def s_concl : RPSState := { init_state with user_score := 3 }

/-- A draw that picks index 2 (Scissors) and hits the 70% coin. -/
def r_pick2 : PlayRand := ⟨true, 2, 0⟩

/-- C1 counterexample: in a state with `user_score = target_wins`, `play` is
not rejected and does not leave the state unchanged - no
MatchAlreadyConcludedError exists; the round is applied and the match is
immediately reset. -/
theorem claim_C1_counterexample :
    s_concl.user_score ≥ s_concl.target_wins ∧
    play s_concl Move.Rock r_coin_hit ≠ s_concl := by
  decide

/-- C1 as amended: there is no `Concluded` state in which rounds are
rejected. A `play` call in a state where a score has reached `target_wins`
is accepted and applies the round (its record lands in the session history);
because scores never decrease, the winner check then fires and the match is
reset inside the same call, leaving every per-match counter at zero - no
explicit `reset_match` by the caller is needed before the next round. -/
theorem claim_C1 (s : RPSState) (m : Move) (r : PlayRand)
    (h : s.target_wins ≤ s.user_score ∨ s.target_wins ≤ s.cpu_score) :
    (play s m r).user_score = 0 ∧
    (play s m r).cpu_score = 0 ∧
    (play s m r).tie_count = 0 ∧
    (play s m r).rounds = 0 ∧
    (play s m r).curr_streak = 0 ∧
    (play s m r).history =
      s.history ++ [⟨m, cpu_pick s r, decide_round m (cpu_pick s r)⟩] := by
  have hp := play_pre_proj s m r
  obtain ⟨hs1, hs2, hs3, hs4, hs5⟩ :=
    apply_outcome_scores s (decide_round m (cpu_pick s r))
  have hcond : (play_pre s m r).user_score ≥ (play_pre s m r).target_wins ∨
      (play_pre s m r).cpu_score ≥ (play_pre s m r).target_wins := by
    rcases h with h | h
    · left
      rw [hp.2.2.2.1, hp.1]
      omega
    · right
      rw [hp.2.2.2.2, hp.1]
      omega
  unfold play
  rw [if_pos hcond]
  exact ⟨rfl, rfl, rfl, rfl, rfl, hp.2.1⟩

/-- Closed instance of C1 as amended, from the concluded-score state. -/
theorem claim_C1_witness :
    (play s_concl Move.Rock r_coin_hit).user_score = 0 ∧
    (play s_concl Move.Rock r_coin_hit).cpu_score = 0 ∧
    (play s_concl Move.Rock r_coin_hit).tie_count = 0 ∧
    (play s_concl Move.Rock r_coin_hit).rounds = 0 ∧
    (play s_concl Move.Rock r_coin_hit).curr_streak = 0 ∧
    (play s_concl Move.Rock r_coin_hit).history =
      s_concl.history ++
        [⟨Move.Rock, cpu_pick s_concl r_coin_hit,
          decide_round Move.Rock (cpu_pick s_concl r_coin_hit)⟩] :=
  claim_C1 s_concl Move.Rock r_coin_hit (Or.inl (by decide))

/-! ### C4 -/

/-- C4: on a round that cannot conclude the match, the streak after `play`
follows exactly the spec rule - Win increments a non-negative streak and
otherwise restarts at +1, Lose decrements a non-positive streak and
otherwise restarts at -1, Tie leaves the streak untouched. -/
theorem claim_C4 (s : RPSState) (m : Move) (r : PlayRand)
    (hu : s.user_score + 1 < s.target_wins) (hc : s.cpu_score + 1 < s.target_wins) :
    (play s m r).curr_streak =
      match decide_round m (cpu_pick s r) with
      | Outcome.Win => if s.curr_streak ≥ (0 : Int) then s.curr_streak + 1 else 1
      | Outcome.Lose => if s.curr_streak ≤ (0 : Int) then s.curr_streak - 1 else -1
      | Outcome.Tie => s.curr_streak := by
  have hp := play_pre_proj s m r
  obtain ⟨hs1, hs2, hs3, hs4, hs5⟩ :=
    apply_outcome_scores s (decide_round m (cpu_pick s r))
  have hcond : ¬((play_pre s m r).user_score ≥ (play_pre s m r).target_wins ∨
      (play_pre s m r).cpu_score ≥ (play_pre s m r).target_wins) := by
    rw [hp.1, hp.2.2.2.1, hp.2.2.2.2]
    push_neg
    omega
  unfold play
  rw [if_neg hcond, hp.2.2.1]
  cases h : decide_round m (cpu_pick s r) <;> simp [apply_outcome, h]

/-- Closed instance of C4: a first win from the fresh state sets the streak
to +1. -/
theorem claim_C4_witness : (play init_state Move.Rock r_pick2).curr_streak = 1 :=
  (claim_C4 init_state Move.Rock r_pick2 (by decide) (by decide)).trans (by decide)

/-! ### C9 -/

/-- C9: from any state with both scores below a positive target, `play`
returns with both scores again strictly below the target (a score that hits
the target triggers the in-call reset), while the round's record - the
concluding one included - is appended to the session history. -/
theorem claim_C9 (s : RPSState) (m : Move) (r : PlayRand)
    (ht : 0 < s.target_wins)
    (hu : s.user_score < s.target_wins) (hc : s.cpu_score < s.target_wins) :
    (play s m r).user_score < (play s m r).target_wins ∧
    (play s m r).cpu_score < (play s m r).target_wins ∧
    (play s m r).history =
      s.history ++ [⟨m, cpu_pick s r, decide_round m (cpu_pick s r)⟩] := by
  have hp := play_pre_proj s m r
  obtain ⟨hs1, hs2, hs3, hs4, hs5⟩ :=
    apply_outcome_scores s (decide_round m (cpu_pick s r))
  unfold play
  dsimp only
  split_ifs with hcond
  · refine ⟨?_, ?_, ?_⟩
    · simpa [reset_match, hp.1] using ht
    · simpa [reset_match, hp.1] using ht
    · simpa [reset_match] using hp.2.1
  · push_neg at hcond
    exact ⟨hcond.1, hcond.2, hp.2.1⟩

/-- Closed instance of C9 at the fresh state. -/
theorem claim_C9_witness :
    (play init_state Move.Rock r_pick2).user_score <
      (play init_state Move.Rock r_pick2).target_wins ∧
    (play init_state Move.Rock r_pick2).cpu_score <
      (play init_state Move.Rock r_pick2).target_wins ∧
    (play init_state Move.Rock r_pick2).history =
      init_state.history ++
        [⟨Move.Rock, cpu_pick init_state r_pick2,
          decide_round Move.Rock (cpu_pick init_state r_pick2)⟩] :=
  claim_C9 init_state Move.Rock r_pick2 (by decide) (by decide) (by decide)

/-! ### C5 -/

/-- Inductive invariant of the update block over any round sequence: rounds
stay non-negative, the streak magnitude is bounded by the round count, and
the streak sign agrees with the accumulated most recent non-tie outcome. -/
lemma streak_invariant_aux : ∀ (rs : List Outcome) (s : RPSState) (acc : Option Outcome),
    0 ≤ s.rounds → -s.rounds ≤ s.curr_streak → s.curr_streak ≤ s.rounds →
    (acc = some Outcome.Win → 0 < s.curr_streak) →
    (acc = some Outcome.Lose → s.curr_streak < 0) →
    (0 ≤ (rs.foldl apply_outcome s).rounds ∧
     -(rs.foldl apply_outcome s).rounds ≤ (rs.foldl apply_outcome s).curr_streak ∧
     (rs.foldl apply_outcome s).curr_streak ≤ (rs.foldl apply_outcome s).rounds ∧
     (rs.foldl (fun a r => if r = Outcome.Tie then a else some r) acc = some Outcome.Win →
        0 < (rs.foldl apply_outcome s).curr_streak) ∧
     (rs.foldl (fun a r => if r = Outcome.Tie then a else some r) acc = some Outcome.Lose →
        (rs.foldl apply_outcome s).curr_streak < 0)) := by
  intro rs
  induction rs with
  | nil =>
      intro s acc h0 h1 h2 h3 h4
      exact ⟨h0, h1, h2, h3, h4⟩
  | cons r rs ih =>
      intro s acc h0 h1 h2 h3 h4
      simp only [List.foldl_cons]
      refine ih _ _ ?_ ?_ ?_ ?_ ?_
      · rw [apply_outcome_rounds]
        omega
      · cases r
        · rw [apply_outcome_rounds, apply_outcome_win_streak]
          split_ifs <;> omega
        · rw [apply_outcome_rounds, apply_outcome_lose_streak]
          split_ifs <;> omega
        · rw [apply_outcome_rounds, apply_outcome_tie_streak]
          omega
      · cases r
        · rw [apply_outcome_rounds, apply_outcome_win_streak]
          split_ifs <;> omega
        · rw [apply_outcome_rounds, apply_outcome_lose_streak]
          split_ifs <;> omega
        · rw [apply_outcome_rounds, apply_outcome_tie_streak]
          omega
      · cases r
        · intro _
          rw [apply_outcome_win_streak]
          split_ifs <;> omega
        · intro hacc
          simp at hacc
        · intro hacc
          rw [apply_outcome_tie_streak]
          exact h3 (by simpa using hacc)
      · cases r
        · intro hacc
          simp at hacc
        · intro _
          rw [apply_outcome_lose_streak]
          split_ifs <;> omega
        · intro hacc
          rw [apply_outcome_tie_streak]
          exact h4 (by simpa using hacc)

/-- C5: after any sequence of applied rounds (the update block of lines
217-227) from the fresh state, the streak magnitude never exceeds the round
count, and once a non-tie outcome has occurred the streak is positive after
a most-recent human win and negative after a most-recent CPU win. -/
theorem claim_C5 (rs : List Outcome) :
    |(rs.foldl apply_outcome init_state).curr_streak| ≤
      (rs.foldl apply_outcome init_state).rounds ∧
    (∀ o, mostRecentNonTie rs = some o →
      (o = Outcome.Win → 0 < (rs.foldl apply_outcome init_state).curr_streak) ∧
      (o = Outcome.Lose → (rs.foldl apply_outcome init_state).curr_streak < 0)) := by
  obtain ⟨h0, h1, h2, h3, h4⟩ :=
    streak_invariant_aux rs init_state none (by decide) (by decide) (by decide)
      (by simp) (by simp)
  refine ⟨?_, ?_⟩
  · rw [abs_le]
    exact ⟨h1, h2⟩
  · intro o ho
    constructor
    · rintro rfl
      exact h3 ho
    · rintro rfl
      exact h4 ho

/-- Closed instance of C5 on the sequence Win, Tie: the streak is within the
round count and still positive across the tie. -/
theorem claim_C5_witness :
    |(([Outcome.Win, Outcome.Tie]).foldl apply_outcome init_state).curr_streak| ≤
      (([Outcome.Win, Outcome.Tie]).foldl apply_outcome init_state).rounds ∧
    0 < (([Outcome.Win, Outcome.Tie]).foldl apply_outcome init_state).curr_streak :=
  ⟨(claim_C5 [Outcome.Win, Outcome.Tie]).1,
   ((claim_C5 [Outcome.Win, Outcome.Tie]).2 Outcome.Win (by decide)).1 rfl⟩
